import Mathlib

/-!
Verification of the coordinator-side validator logic of the
`mind-network/bittensor-subnet-14` repository
(`llm_defender/core/validators/validator.py`).

Python floats are embedded as rationals (`ℚ`); all the constants involved
(`0.85`, `0.15`, `5.0`, `20`, `2.0`, `10`, `12`, …) and all the arithmetic
on them in the claims under study are exact in binary floating point, so the
rational embedding is faithful on the inputs considered.  Torch Bool tensors
are embedded as `List Bool`; the metagraph is embedded as the positional
list of its axons.  I/O effects (reading the state file, renaming a corrupt
file) are embedded by passing the parse outcome in as data and returning the
requested rename as data.
-/

/-- One axon of the metagraph, restricted to the fields that
`get_uids_to_query` reads: `metagraph.neurons[uid].axon_info.ip`,
`metagraph.hotkeys[uid]` and `metagraph.total_stake[uid]`.  The list of
axons passed to `get_uids_to_query` is positionally the metagraph itself. -/
structure AxonInfo where
  hotkey : String
  ip : String
  stake : ℚ
deriving DecidableEq, Repr

/-- The `blacklisted_uids` list of `get_uids_to_query`: for each blacklisted
hotkey that occurs in `metagraph.hotkeys`, the index returned by
`self.metagraph.hotkeys.index(hotkey)` (Python `list.index`, i.e. the first
occurrence), in blacklist order. -/
def blacklistedUidsOf (hotkeys : List String) (blacklist : List String) : List Nat :=
  (blacklist.filter (fun h => h ∈ hotkeys)).map (fun h => hotkeys.indexOf h)

/-- The `uids_with_stake` Bool tensor: `metagraph.total_stake >= 0.0`. -/
def uidsWithStakeMask (axons : List AxonInfo) : List Bool :=
  axons.map (fun a => decide (0 ≤ a.stake))

/-- The `invalid_uids` Bool tensor: `ip != "0.0.0.0"` per uid (despite its
name, `True` marks a uid whose IP is valid). -/
def validIpMask (axons : List AxonInfo) : List Bool :=
  axons.map (fun a => decide (a.ip ≠ "0.0.0.0"))

/-- The `blacklisted_uids_tensor` Bool tensor:
`uid not in blacklisted_uids` per uid. -/
def notBlacklistedMask (n : Nat) (bluids : List Nat) : List Bool :=
  (List.range n).map (fun uid => decide (uid ∉ bluids))

/-- The `uids_to_filter` Bool tensor, exactly as combined in the source:
`torch.logical_not(~blacklisted_uids_tensor | ~invalid_uids | ~uids_with_stake)`,
elementwise on the three aligned masks. -/
def uidsToFilterMask (axons : List AxonInfo) (blacklist : List String) : List Bool :=
  let bluids := blacklistedUidsOf (axons.map AxonInfo.hotkey) blacklist
  List.zipWith3 (fun b v s => !(!b || !v || !s))
    (notBlacklistedMask axons.length bluids) (validIpMask axons) (uidsWithStakeMask axons)

/-- The keep mask as the specification words it: the plain conjunction of
`not blacklisted`, `ip valid` and `stake ok`.  Used only to compare against
the source's double-negated combination `uidsToFilterMask`. -/
def keepMaskSpec (axons : List AxonInfo) (blacklist : List String) : List Bool :=
  let bluids := blacklistedUidsOf (axons.map AxonInfo.hotkey) blacklist
  List.zipWith3 (fun b v s => b && v && s)
    (notBlacklistedMask axons.length bluids) (validIpMask axons) (uidsWithStakeMask axons)

/-- Python's `[x for x, flag in zip(xs, flags) if flag]`. -/
def selectByMask {α : Type} : List α → List Bool → List α
  | x :: xs, f :: fs => if f then x :: selectByMask xs fs else selectByMask xs fs
  | _, _ => []

/-- The filtered candidate list `uids_to_query` of `get_uids_to_query`
before pagination: `[axon for axon, keep_flag in zip(all_axons, uids_to_filter)
if keep_flag.item()]`. -/
def uidsToQueryAll (axons : List AxonInfo) (blacklist : List String) : List AxonInfo :=
  selectByMask axons (uidsToFilterMask axons blacklist)

/-- Return value of `get_uids_to_query`.  The source returns tuples of two
different shapes (`return [], []` on an empty page versus the four-element
`return uids_to_query, list_of_uids, blacklisted_uids, uids_not_to_query`),
and can also raise `IndexError`; the three outcomes are the three
constructors. -/
inductive QueryResult where
  | pair (uidsToQuery : List AxonInfo) (listOfUids : List Nat)
  | quad (uidsToQuery : List AxonInfo) (listOfUids : List Nat)
      (blacklistedUids : List Nat) (uidsNotToQuery : List Nat)
  | err (msg : String)
deriving DecidableEq, Repr

/-- The `uids_to_query` component of a non-raising return of
`get_uids_to_query` (first element of either tuple shape). -/
def QueryResult.toQuery : QueryResult → Option (List AxonInfo)
  | .pair q _ => some q
  | .quad q _ _ _ => some q
  | .err _ => none

/-- `Validator.get_uids_to_query(all_axons)`, with the metagraph passed as
`axons` (the source's `all_axons` is positionally the metagraph's axon list),
`self.blacklisted_miner_hotkeys` as `blacklist`, and the instance fields
`self.max_targets` / `self.target_group` passed and returned explicitly
(the second component is the value of `self.target_group` after the call). -/
def get_uids_to_query (axons : List AxonInfo) (blacklist : List String)
    (maxTargets targetGroup : Nat) : QueryResult × Nat :=
  let hotkeys := axons.map AxonInfo.hotkey
  let bluids := blacklistedUidsOf hotkeys blacklist
  let keep := uidsToFilterMask axons blacklist
  let utq := uidsToQueryAll axons blacklist
  let filteredOut := selectByMask axons (keep.map (fun f => !f))
  let uidsNot := filteredOut.map (fun a => hotkeys.indexOf a.hotkey)
  if maxTargets < 256 then
    let start := maxTargets * targetGroup
    let stop := min utq.length (maxTargets * (targetGroup + 1))
    if start = stop then (QueryResult.pair [] [], targetGroup)
    else if utq.length ≤ start then
      (QueryResult.err "Starting index for querying the miners is out-of-bounds",
        targetGroup)
    else
      let newTg := if utq.length ≤ stop then 0 else targetGroup + 1
      let page := (utq.drop start).take (stop - start)
      (QueryResult.quad page (page.map (fun a => hotkeys.indexOf a.hotkey)) bluids uidsNot,
        newTg)
  else
    (QueryResult.quad utq (utq.map (fun a => hotkeys.indexOf a.hotkey)) bluids uidsNot,
      targetGroup)

/-- One raw blacklist entry: a JSON object that may or may not carry a
`"hotkey"` key (`item["hotkey"] … if "hotkey" in item`).  Other keys (such
as `reason`) are never read by `check_blacklisted_miner_hotkeys`. -/
structure BlacklistEntry where
  hotkey : Option String
deriving DecidableEq, Repr

/-- `Validator.check_blacklisted_miner_hotkeys`: concatenates the local and
remote entry lists and keeps the `"hotkey"` field of every entry that has
one; the result is stored in `self.blacklisted_miner_hotkeys`. -/
def check_blacklisted_miner_hotkeys (localBl remoteBl : List BlacklistEntry) :
    List String :=
  (localBl ++ remoteBl).filterMap BlacklistEntry.hotkey

/-- `Validator.calculate_subscore_speed(hotkey, response_time)` with the
instance field `self.timeout` passed explicitly: clamps `response_time` to
`timeout`, then returns `1.0 - (response_time / timeout)`. -/
def calculate_subscore_speed (timeout responseTime : ℚ) : ℚ :=
  let rt := if timeout < responseTime then timeout else responseTime
  1 - rt / timeout

/-- `Validator.apply_penalty(response, hotkey, prompt)`.  `minerResponses`
is `self.miner_responses` as an association list (`[]` embeds both `None`
and the empty dict, which Python's `if not self.miner_responses` treats
alike); the three external `penalty.*.check_penalty` collaborators, already
applied to the current uid / history / response / prompt, are abstracted as
`check` (the source starts each accumulator at `0.0` and adds one external
signal to it). -/
def apply_penalty {α : Type} (minerResponses : List (String × List α))
    (check : String → ℚ × ℚ × ℚ) (hotkey : String) : ℚ × ℚ × ℚ :=
  if minerResponses.isEmpty then (5, 5, 5)
  else if hotkey ∉ minerResponses.map Prod.fst then (5, 5, 5)
  else
    let s := check hotkey
    (0 + s.1, 0 + s.2.1, 0 + s.2.2)

/-- `Validator.get_response_penalties` after its call to `apply_penalty`:
turns the `(similarity, base, duplicate)` penalty triple into the
`(distance_penalty_multiplier, speed_penalty)` pair via the source's
piecewise formulas. -/
def get_response_penalties (p : ℚ × ℚ × ℚ) : ℚ × ℚ :=
  let similarity := p.1
  let base := p.2.1
  let duplicate := p.2.2
  let distanceMult := if 20 ≤ base then 0
    else if 0 < base then 1 - base / 2 / 10 else 1
  let speedMult := if 20 ≤ similarity + duplicate then 0
    else if 0 < similarity + duplicate then 1 - (similarity + duplicate) / 2 / 10
    else 1
  (distanceMult, speedMult)

/-- `Validator.calculate_penalized_scores(score_weights, distance_score,
speed_score, distance_penalty, speed_penalty)`: returns
`(total_score, final_distance_score, final_speed_score)`. -/
def calculate_penalized_scores (weights : ℚ × ℚ) (distanceScore speedScore
    distancePenalty speedPenalty : ℚ) : ℚ × ℚ × ℚ :=
  let finalDistance := weights.1 * distanceScore * distancePenalty
  let finalSpeed := weights.2 * speedScore * speedPenalty
  (finalDistance + finalSpeed, finalDistance, finalSpeed)

/-- The fixed `score_weights = {"distance": 0.85, "speed": 0.15}` of
`calculate_score`. -/
def scoreWeights : ℚ × ℚ := (0.85, 0.15)

/-- Modelled from the spec: `validate_numerical_value` (imported from
`llm_defender.base.utils`, which is not among the provided sources) checks
that a numeric value lies within the closed range given by its last two
arguments ("Re-validate total and both weighted components are in [0,1]"). -/
def validate_numerical_value (v lo hi : ℚ) : Bool :=
  decide (lo ≤ v ∧ v ≤ hi)

/-- The scoring record returned by `calculate_score` (the source's
`scoring.process.get_engine_response_object(...)` keyword payload). -/
structure EngineResponseObject where
  totalScore : ℚ
  finalDistanceScore : ℚ
  finalSpeedScore : ℚ
  distancePenalty : ℚ
  speedPenalty : ℚ
  rawDistanceScore : ℚ
  rawSpeedScore : ℚ
deriving DecidableEq, Repr

/-- Modelled from the spec: `scoring.process.get_engine_response_object()`
called with no arguments (module `llm_defender.core.validators.scoring`,
not among the provided sources) is the fail-closed "zero/empty ScoreResult"
of §4.3 — every numeric field zero. -/
def zeroEngineResponseObject : EngineResponseObject :=
  ⟨0, 0, 0, 0, 0, 0, 0⟩

/-- `Validator.calculate_score(response, target, prompt, response_time,
hotkey)`.  The two external subscore computations are passed in as data:
`distanceSub` is the result of the external comparator
`scoring.process.calculate_subscore_distance` (`none` when it signals an
invalid response) and `speedSub` the result of the external
`scoring.process.calculate_subscore_speed` (`none` is substituted by `0.0`);
`penaltyTriple` is the `(similarity, base, duplicate)` triple that
`get_response_penalties` obtains from `apply_penalty`. -/
def calculate_score (distanceSub speedSub : Option ℚ) (penaltyTriple : ℚ × ℚ × ℚ) :
    EngineResponseObject :=
  let distanceScore := match distanceSub with | none => 0 | some d => d
  let speedScore := match speedSub with | none => 0 | some s => s
  if !validate_numerical_value distanceScore 0 1
      || !validate_numerical_value speedScore 0 1 then
    zeroEngineResponseObject
  else
    let mults := get_response_penalties penaltyTriple
    let scores := calculate_penalized_scores scoreWeights distanceScore speedScore
      mults.1 mults.2
    if !validate_numerical_value scores.1 0 1
        || !validate_numerical_value scores.2.1 0 1
        || !validate_numerical_value scores.2.2 0 1 then
      zeroEngineResponseObject
    else
      ⟨scores.1, scores.2.1, scores.2.2, mults.1, mults.2, distanceScore, speedScore⟩

/-- `Validator.init_default_scores`: `torch.zeros_like(self.metagraph.S)`,
an all-zero vector sized to the current metagraph. -/
def init_default_scores (metagraphSize : Nat) : List ℚ :=
  List.replicate metagraphSize 0

/-- `Validator.check_hotkeys`: reacts to hotkey churn.  Takes the stored
snapshot `self.hotkeys` (`[]` embeds the falsy `None`/empty cases), the
current `metagraph.hotkeys`, and the stored `self.scores`; returns the new
`(self.scores, self.hotkeys)` pair.  When the lengths match, the source
iterates the positions and zeroes `self.scores[i]` exactly where the hotkey
at `i` changed. -/
def check_hotkeys (storedHotkeys metagraphHotkeys : List String)
    (scores : List ℚ) : List ℚ × List String :=
  if storedHotkeys.isEmpty then (scores, metagraphHotkeys)
  else if storedHotkeys.length = metagraphHotkeys.length then
    (List.zipWith (fun sc (p : String × String) => if p.1 ≠ p.2 then 0 else sc)
      scores (storedHotkeys.zip metagraphHotkeys), metagraphHotkeys)
  else
    (init_default_scores metagraphHotkeys.length, metagraphHotkeys)

/-- The mutable validator fields that `load_state` /
`reset_validator_state` touch. -/
structure ValidatorState where
  step : Nat
  scores : List ℚ
  hotkeys : Option (List String)
  lastUpdatedBlock : Nat
  blacklistedMinerHotkeys : Option (List String)
deriving DecidableEq, Repr

/-- A successfully deserialized state file: the fields read out of
`torch.load(state_path)`.  `blacklistedMinerHotkeys = none` embeds a state
dict without the `"blacklisted_miner_hotkeys"` key (in which case the field
is left untouched). -/
structure SavedState where
  step : Nat
  scores : List ℚ
  hotkeys : Option (List String)
  lastUpdatedBlock : Nat
  blacklistedMinerHotkeys : Option (List String)
deriving DecidableEq, Repr

/-- `Validator.reset_validator_state(state_path)`: renames the current
state file to `f"{state_path}-{int(datetime.now().timestamp())}.autorecovery"`
and resets every field to its default.  The requested rename is returned as
data (destination path). -/
def reset_validator_state (statePath : String) (timestamp : Nat)
    (metagraphSize : Nat) : ValidatorState × Option String :=
  (⟨0, init_default_scores metagraphSize, none, 0, none⟩,
    some (statePath ++ "-" ++ toString timestamp ++ ".autorecovery"))

/-- `Validator.load_state`.  File-system effects are passed in as data:
`fileExists` is `path.exists(state_path)`, and `parsed` is the outcome of
the `try` body (`torch.load` plus the field accesses) — `none` embeds any
exception raised inside it, which the source catches.  The result is the
new validator state plus the rename destination (if any); `Except` makes
exception propagation explicit — a `.error` would embed an uncaught
exception escaping `load_state`. -/
def load_state (prev : ValidatorState) (statePath : String) (fileExists : Bool)
    (parsed : Option SavedState) (timestamp metagraphSize : Nat) :
    Except String (ValidatorState × Option String) :=
  if fileExists then
    match parsed with
    | some st =>
      .ok (⟨st.step, st.scores, st.hotkeys, st.lastUpdatedBlock,
        match st.blacklistedMinerHotkeys with
        | some b => some b
        | none => prev.blacklistedMinerHotkeys⟩, none)
    | none => .ok (reset_validator_state statePath timestamp metagraphSize)
  else
    .ok ({ prev with scores := init_default_scores metagraphSize }, none)

/-- Claim C9: for every response time and fixed positive timeout,
`calculate_subscore_speed` returns `1 - min(response_time, timeout)/timeout`,
returns exactly `0` whenever `response_time ≥ timeout`, and returns exactly
`0` at `response_time = 15`, `timeout = 12`. -/
theorem calculate_subscore_speed_spec (timeout rt : ℚ) (h : 0 < timeout) :
    calculate_subscore_speed timeout rt = 1 - min rt timeout / timeout ∧
      (timeout ≤ rt → calculate_subscore_speed timeout rt = 0) ∧
      calculate_subscore_speed 12 15 = 0 := by
  refine ⟨?_, ?_, by norm_num [calculate_subscore_speed]⟩
  · simp only [calculate_subscore_speed]
    rcases le_or_lt rt timeout with hle | hlt
    · rw [min_eq_left hle, if_neg (not_lt.mpr hle)]
    · rw [min_eq_right hlt.le, if_pos hlt]
  · intro hge
    simp only [calculate_subscore_speed]
    rcases lt_or_eq_of_le hge with hlt | heq
    · rw [if_pos hlt, div_self (ne_of_gt h)]
      ring
    · rw [← heq, if_neg (lt_irrefl timeout), div_self (ne_of_gt h)]
      ring

/-- Witness for `calculate_subscore_speed_spec` at `timeout = 12`,
`response_time = 15`. -/
theorem calculate_subscore_speed_spec_witness :
    (0 : ℚ) < 12 ∧ calculate_subscore_speed 12 15 = 0 :=
  ⟨by norm_num, (calculate_subscore_speed_spec 12 15 (by norm_num)).2.1 (by norm_num)⟩

/-- Claim C6: for every hotkey with no prior entry in the response-history
mapping (including the empty/unset mapping), `apply_penalty` returns exactly
`(5, 5, 5)` regardless of the external penalty signals, and feeding that
triple through the multiplier derivation of `get_response_penalties` yields
distance multiplier `3/4 = 0.75` and speed multiplier `1/2 = 0.5`. -/
theorem apply_penalty_unseen {α : Type} (minerResponses : List (String × List α))
    (check : String → ℚ × ℚ × ℚ) (hotkey : String)
    (h : hotkey ∉ minerResponses.map Prod.fst) :
    apply_penalty minerResponses check hotkey = (5, 5, 5) ∧
      get_response_penalties (5, 5, 5) = (3 / 4, 1 / 2) := by
  constructor
  · unfold apply_penalty
    by_cases h1 : minerResponses.isEmpty = true
    · rw [if_pos h1]
    · rw [if_neg h1, if_pos h]
  · unfold get_response_penalties
    norm_num

/-- Witness for `apply_penalty_unseen`: the empty mapping and hotkey "a". -/
theorem apply_penalty_unseen_witness :
    "a" ∉ ([] : List (String × List Unit)).map Prod.fst ∧
      apply_penalty ([] : List (String × List Unit)) (fun _ => (0, 0, 0)) "a" = (5, 5, 5) ∧
      get_response_penalties (5, 5, 5) = (3 / 4, 1 / 2) :=
  ⟨by simp,
    (apply_penalty_unseen ([] : List (String × List Unit)) (fun _ => (0, 0, 0)) "a"
      (by simp)).1,
    (apply_penalty_unseen ([] : List (String × List Unit)) (fun _ => (0, 0, 0)) "a"
      (by simp)).2⟩

/-- Claim C5 (amended): `check_blacklisted_miner_hotkeys` stores exactly the
`"hotkey"` fields of the concatenated local and remote entry lists, so a
hotkey is in the result iff some entry of either source carries it; the
result is however not deduplicated (see the counterexample). -/
theorem check_blacklisted_miner_hotkeys_membership
    (localBl remoteBl : List BlacklistEntry) (h : String) :
    h ∈ check_blacklisted_miner_hotkeys localBl remoteBl ↔
      (∃ e ∈ localBl, e.hotkey = some h) ∨ (∃ e ∈ remoteBl, e.hotkey = some h) := by
  simp only [check_blacklisted_miner_hotkeys, List.mem_filterMap, List.mem_append]
  constructor
  · rintro ⟨e, he | he, hh⟩
    · exact Or.inl ⟨e, he, hh⟩
    · exact Or.inr ⟨e, he, hh⟩
  · rintro (⟨e, he, hh⟩ | ⟨e, he, hh⟩)
    · exact ⟨e, Or.inl he, hh⟩
    · exact ⟨e, Or.inr he, hh⟩

/-- Counterexample to claim C5 as stated: with the same hotkey present in
the local and the remote source the stored list contains a duplicate — the
union is not deduplicated. -/
theorem check_blacklisted_miner_hotkeys_not_dedup :
    check_blacklisted_miner_hotkeys [⟨some "a"⟩] [⟨some "a"⟩] = ["a", "a"] ∧
      ¬ (check_blacklisted_miner_hotkeys [⟨some "a"⟩] [⟨some "a"⟩]).Nodup := by
  constructor
  · rfl
  · decide

/-- Claim C8: `load_state` on a state file whose deserialization or field
access fails never propagates the exception: it renames the file to the
timestamp-based `.autorecovery` path and resets scores (all-zero, sized to
the registry), step, last-updated block, hotkey snapshot and blacklist to
fresh defaults; with no state file it just reinitializes default all-zero
scores; and no input makes it propagate an error. -/
theorem load_state_recovery (prev : ValidatorState) (statePath : String)
    (ts n : Nat) :
    load_state prev statePath true none ts n =
      .ok (⟨0, List.replicate n 0, none, 0, none⟩,
        some (statePath ++ "-" ++ toString ts ++ ".autorecovery")) ∧
    (∀ parsed, load_state prev statePath false parsed ts n =
      .ok ({ prev with scores := List.replicate n 0 }, none)) ∧
    (∀ fileExists parsed, ∃ out,
      load_state prev statePath fileExists parsed ts n = .ok out) := by
  refine ⟨rfl, fun parsed => rfl, fun fileExists parsed => ?_⟩
  cases fileExists <;> cases parsed <;> exact ⟨_, rfl⟩

/-- Both penalty multipliers derived by `get_response_penalties` lie in
`[0, 1]`, whatever the penalty triple. -/
theorem get_response_penalties_bounds (p : ℚ × ℚ × ℚ) :
    0 ≤ (get_response_penalties p).1 ∧ (get_response_penalties p).1 ≤ 1 ∧
      0 ≤ (get_response_penalties p).2 ∧ (get_response_penalties p).2 ≤ 1 := by
  unfold get_response_penalties
  dsimp only
  refine ⟨?_, ?_, ?_, ?_⟩ <;> split_ifs <;> linarith

/-- The total score returned by `calculate_score` always lies in `[0, 1]`:
either every component passed revalidation (so the total is in range) or the
zero response object was returned. -/
theorem calculate_score_total_bounds (distanceSub speedSub : Option ℚ)
    (p : ℚ × ℚ × ℚ) :
    0 ≤ (calculate_score distanceSub speedSub p).totalScore ∧
      (calculate_score distanceSub speedSub p).totalScore ≤ 1 := by
  unfold calculate_score
  rcases distanceSub with _ | dv <;> rcases speedSub with _ | sv <;>
    (dsimp only
     split_ifs with h1 h2
     · norm_num [zeroEngineResponseObject]
     · norm_num [zeroEngineResponseObject]
     · simp only [Bool.or_eq_true, Bool.not_eq_true', not_or, validate_numerical_value,
         decide_eq_false_iff_not, not_not] at h2
       exact ⟨h2.1.1.1, h2.1.1.2⟩)

/-- Claim C2: for every distance and speed subscore in `[0, 1]` and every
penalty-multiplier pair produced by `get_response_penalties`, the total of
`calculate_penalized_scores` with weights `0.85` and `0.15` lies in `[0, 1]`;
consequently every response object returned by `calculate_score` carries a
total score in `[0, 1]`. -/
theorem calculate_penalized_scores_total_bounds (d s : ℚ) (hd0 : 0 ≤ d)
    (hd1 : d ≤ 1) (hs0 : 0 ≤ s) (hs1 : s ≤ 1) (p : ℚ × ℚ × ℚ)
    (distanceSub speedSub : Option ℚ) (q : ℚ × ℚ × ℚ) :
    (0 ≤ (calculate_penalized_scores scoreWeights d s
        (get_response_penalties p).1 (get_response_penalties p).2).1 ∧
      (calculate_penalized_scores scoreWeights d s
        (get_response_penalties p).1 (get_response_penalties p).2).1 ≤ 1) ∧
    (0 ≤ (calculate_score distanceSub speedSub q).totalScore ∧
      (calculate_score distanceSub speedSub q).totalScore ≤ 1) := by
  refine ⟨?_, calculate_score_total_bounds distanceSub speedSub q⟩
  obtain ⟨hm1, hm2, hm3, hm4⟩ := get_response_penalties_bounds p
  unfold calculate_penalized_scores scoreWeights
  dsimp only
  constructor
  · have hd := mul_nonneg (mul_nonneg hd0 hm1) (by norm_num : (0:ℚ) ≤ 0.85)
    have hs := mul_nonneg (mul_nonneg hs0 hm3) (by norm_num : (0:ℚ) ≤ 0.15)
    nlinarith
  · have hdm : d * (get_response_penalties p).1 ≤ 1 := by nlinarith
    have hsm : s * (get_response_penalties p).2 ≤ 1 := by nlinarith
    nlinarith

/-- Witness for `calculate_penalized_scores_total_bounds` at the spec's
Example 1 inputs (`distance = 0.8`, `speed = 0.9`, no penalties). -/
theorem calculate_penalized_scores_total_bounds_witness :
    0 ≤ (calculate_penalized_scores scoreWeights 0.8 0.9
        (get_response_penalties (0, 0, 0)).1 (get_response_penalties (0, 0, 0)).2).1 ∧
      (calculate_penalized_scores scoreWeights 0.8 0.9
        (get_response_penalties (0, 0, 0)).1 (get_response_penalties (0, 0, 0)).2).1 ≤ 1 :=
  (calculate_penalized_scores_total_bounds 0.8 0.9 (by norm_num) (by norm_num)
    (by norm_num) (by norm_num) (0, 0, 0) (some 0.8) (some 0.9) (0, 0, 0)).1

/-- `getD` of a `zipWith` at an in-bounds index is the function applied to
the `getD`s of the operands. -/
theorem getD_zipWith {α β γ : Type} (f : α → β → γ) (l1 : List α) (l2 : List β)
    (i : Nat) (d1 : α) (d2 : β) (d : γ) (h1 : i < l1.length) (h2 : i < l2.length) :
    (List.zipWith f l1 l2).getD i d = f (l1.getD i d1) (l2.getD i d2) := by
  induction l1 generalizing l2 i with
  | nil => simp at h1
  | cons x xs ih =>
    cases l2 with
    | nil => simp at h2
    | cons y ys =>
      cases i with
      | zero => simp
      | succ n =>
        simp only [List.zipWith_cons_cons, List.getD_cons_succ]
        exact ih ys n (by simpa using h1) (by simpa using h2)

/-- Claim C7 (amended): for a non-empty stored hotkey snapshot,
`check_hotkeys` reinitializes the whole scores vector to zeros (sized to the
new registry) when the snapshot length differs from the metagraph hotkey
list length; when the lengths match it zeroes exactly the positions whose
hotkey changed and keeps every unchanged position's score; in both cases the
snapshot is replaced by the current metagraph hotkeys.  (When the stored
snapshot is empty or unset the scores are left untouched — see the
counterexample to the unamended claim.) -/
theorem check_hotkeys_spec (stored current : List String) (scores : List ℚ)
    (hne : stored ≠ []) (hlen : scores.length = stored.length) :
    (stored.length ≠ current.length →
      (check_hotkeys stored current scores).1 = init_default_scores current.length) ∧
    (stored.length = current.length → ∀ i, i < current.length →
      (check_hotkeys stored current scores).1.getD i 0 =
        if stored.getD i "" = current.getD i "" then scores.getD i 0 else 0) ∧
    (check_hotkeys stored current scores).2 = current := by
  have hE : stored.isEmpty = false := by
    cases stored with
    | nil => exact absurd rfl hne
    | cons a l => rfl
  unfold check_hotkeys
  rw [hE]
  simp only [Bool.false_eq_true, if_false]
  split_ifs with h
  · refine ⟨fun hc => absurd h hc, fun _ i hi => ?_, rfl⟩
    have hi1 : i < scores.length := by omega
    have hi2 : i < (stored.zip current).length := by
      rw [List.length_zip]
      omega
    rw [getD_zipWith _ scores (stored.zip current) i 0 ("", "") 0 hi1 hi2]
    have hzip : (stored.zip current).getD i ("", "") =
        (stored.getD i "", current.getD i "") := by
      rw [List.zip_eq_zipWith]
      exact getD_zipWith Prod.mk stored current i "" "" ("", "") (by omega) hi
    rw [hzip]
    by_cases hc : stored.getD i "" = current.getD i ""
    · rw [if_pos hc, if_neg (by simpa using hc)]
    · rw [if_neg hc, if_pos (by simpa using hc)]
  · exact ⟨fun _ => rfl, fun hc => absurd hc h, rfl⟩

/-- Witness for `check_hotkeys_spec`: snapshot `["a", "b"]`, current hotkeys
`["a", "c"]` — the score at position 0 (unchanged hotkey) is kept and the
score at position 1 (replaced hotkey) is zeroed. -/
theorem check_hotkeys_spec_witness :
    (check_hotkeys ["a", "b"] ["a", "c"] [1/2, 1/3]).1.getD 0 0 = (1/2 : ℚ) ∧
      (check_hotkeys ["a", "b"] ["a", "c"] [1/2, 1/3]).1.getD 1 0 = 0 := by
  have h := check_hotkeys_spec ["a", "b"] ["a", "c"] [1/2, 1/3]
    (by simp) (by simp)
  constructor
  · have h0 := h.2.1 rfl 0 (by norm_num)
    simpa using h0
  · have h1 := h.2.1 rfl 1 (by norm_num)
    simpa using h1

/-- Counterexample to claim C7 as stated: with an empty stored snapshot and
a one-element metagraph the two lists differ in length, yet `check_hotkeys`
does not reinitialize the scores vector (the falsy-snapshot branch only
replaces the snapshot). -/
theorem check_hotkeys_empty_snapshot_cex :
    ([] : List String).length ≠ ["a"].length ∧
      (check_hotkeys [] ["a"] []).1 = [] ∧
      (check_hotkeys [] ["a"] []).1 ≠ init_default_scores ["a"].length := by
  refine ⟨by simp, rfl, ?_⟩
  decide

/-- Any element selected by `selectByMask` sits at some index that is
in-bounds for both lists, carries the element, and has a `true` flag. -/
theorem selectByMask_mem {α : Type} {a : α} {l : List α} {m : List Bool}
    (h : a ∈ selectByMask l m) :
    ∃ i, ∃ (h1 : i < l.length) (h2 : i < m.length),
      l.get ⟨i, h1⟩ = a ∧ m.get ⟨i, h2⟩ = true := by
  induction l generalizing m with
  | nil =>
    exfalso
    cases m <;> simp [selectByMask] at h
  | cons x xs ih =>
    cases m with
    | nil => exfalso; simp [selectByMask] at h
    | cons f fs =>
      cases f with
      | false =>
        have h' : a ∈ selectByMask xs fs := by simpa [selectByMask] using h
        obtain ⟨i, hi1, hi2, hg, hm⟩ := ih h'
        exact ⟨i + 1, Nat.succ_lt_succ hi1, Nat.succ_lt_succ hi2, hg, hm⟩
      | true =>
        have h' : a = x ∨ a ∈ selectByMask xs fs := by simpa [selectByMask] using h
        rcases h' with rfl | h'
        · exact ⟨0, Nat.succ_pos _, Nat.succ_pos _, rfl, rfl⟩
        · obtain ⟨i, hi1, hi2, hg, hm⟩ := ih h'
          exact ⟨i + 1, Nat.succ_lt_succ hi1, Nat.succ_lt_succ hi2, hg, hm⟩

/-- Length of `List.zipWith3`. -/
theorem length_zipWith3 {α β γ δ : Type} (f : α → β → γ → δ) :
    ∀ (l1 : List α) (l2 : List β) (l3 : List γ),
      (List.zipWith3 f l1 l2 l3).length = min l1.length (min l2.length l3.length) := by
  intro l1
  induction l1 with
  | nil => intro l2 l3; cases l2 <;> cases l3 <;> simp [List.zipWith3]
  | cons x xs ih =>
    intro l2 l3
    cases l2 with
    | nil => simp [List.zipWith3]
    | cons y ys =>
      cases l3 with
      | nil => simp [List.zipWith3]
      | cons z zs =>
        simp only [List.zipWith3, List.length_cons, ih]
        omega

/-- Element of `List.zipWith3` at an in-bounds index. -/
theorem get_zipWith3 {α β γ δ : Type} (f : α → β → γ → δ) :
    ∀ (l1 : List α) (l2 : List β) (l3 : List γ) (i : Nat)
      (h : i < (List.zipWith3 f l1 l2 l3).length) (h1 : i < l1.length)
      (h2 : i < l2.length) (h3 : i < l3.length),
      (List.zipWith3 f l1 l2 l3).get ⟨i, h⟩ =
        f (l1.get ⟨i, h1⟩) (l2.get ⟨i, h2⟩) (l3.get ⟨i, h3⟩) := by
  intro l1
  induction l1 with
  | nil => intro l2 l3 i h h1; simp at h1
  | cons x xs ih =>
    intro l2 l3 i h h1 h2 h3
    cases l2 with
    | nil => simp at h2
    | cons y ys =>
      cases l3 with
      | nil => simp at h3
      | cons z zs =>
        cases i with
        | zero => rfl
        | succ n =>
          exact ih ys zs n (by simpa [List.zipWith3] using h)
            (by simpa using h1) (by simpa using h2) (by simpa using h3)

/-- The combined filter mask has one flag per axon. -/
theorem uidsToFilterMask_length (axons : List AxonInfo) (bl : List String) :
    (uidsToFilterMask axons bl).length = axons.length := by
  unfold uidsToFilterMask notBlacklistedMask validIpMask uidsWithStakeMask
  rw [length_zipWith3]
  simp

/-- A `true` flag of the combined filter mask means: the uid is not among
the blacklisted uids, the axon's IP is valid, and its stake is nonnegative. -/
theorem uidsToFilterMask_get (axons : List AxonInfo) (bl : List String) (i : Nat)
    (h : i < (uidsToFilterMask axons bl).length) (hi : i < axons.length) :
    (uidsToFilterMask axons bl).get ⟨i, h⟩ = true ↔
      (i ∉ blacklistedUidsOf (axons.map AxonInfo.hotkey) bl ∧
        (axons.get ⟨i, hi⟩).ip ≠ "0.0.0.0" ∧ 0 ≤ (axons.get ⟨i, hi⟩).stake) := by
  unfold uidsToFilterMask
  rw [get_zipWith3 _ _ _ _ i h (by simpa [notBlacklistedMask] using hi)
    (by simpa [validIpMask] using hi) (by simpa [uidsWithStakeMask] using hi)]
  simp [notBlacklistedMask, validIpMask, uidsWithStakeMask, and_assoc]

/-- With duplicate-free hotkeys, position `i` holding a blacklisted hotkey
is collected into `blacklisted_uids` (Python `list.index` finds `i`). -/
theorem mem_blacklistedUidsOf {hotkeys : List String} {bl : List String}
    (hnd : hotkeys.Nodup) {i : Nat} (hi : i < hotkeys.length)
    (hmem : hotkeys.get ⟨i, hi⟩ ∈ bl) : i ∈ blacklistedUidsOf hotkeys bl := by
  unfold blacklistedUidsOf
  refine List.mem_map.mpr ⟨hotkeys.get ⟨i, hi⟩, ?_, ?_⟩
  · rw [List.mem_filter]
    exact ⟨hmem, by simp⟩
  · have hmem' : hotkeys.get ⟨i, hi⟩ ∈ hotkeys := List.get_mem hotkeys i hi
    have hlt : hotkeys.indexOf (hotkeys.get ⟨i, hi⟩) < hotkeys.length :=
      List.indexOf_lt_length.mpr hmem'
    have hval : hotkeys.get ⟨hotkeys.indexOf (hotkeys.get ⟨i, hi⟩), hlt⟩ =
        hotkeys.get ⟨i, hi⟩ := List.indexOf_get hlt
    have := (List.Nodup.get_inj_iff hnd).mp hval
    exact congrArg Fin.val this

/-- Every axon of the pre-pagination filtered list has nonnegative stake, a
valid IP, and (with duplicate-free hotkeys) a non-blacklisted hotkey. -/
theorem uidsToQueryAll_valid (axons : List AxonInfo) (bl : List String)
    (hnd : (axons.map AxonInfo.hotkey).Nodup) {a : AxonInfo}
    (ha : a ∈ uidsToQueryAll axons bl) :
    0 ≤ a.stake ∧ a.ip ≠ "0.0.0.0" ∧ a.hotkey ∉ bl := by
  obtain ⟨i, h1, h2, hget, hmask⟩ := selectByMask_mem ha
  rw [uidsToFilterMask_get axons bl i h2 h1] at hmask
  obtain ⟨hbl, hip, hstake⟩ := hmask
  subst hget
  refine ⟨hstake, hip, fun hc => hbl ?_⟩
  have hi' : i < (axons.map AxonInfo.hotkey).length := by simpa using h1
  have hkey : (axons.map AxonInfo.hotkey).get ⟨i, hi'⟩ =
      (axons.get ⟨i, h1⟩).hotkey := by
    simp
  exact mem_blacklistedUidsOf hnd hi' (by rw [hkey]; exact hc)

/-- Pointwise-equal combining functions give equal `zipWith3` results. -/
theorem zipWith3_congr {α β γ δ : Type} {f g : α → β → γ → δ}
    (h : ∀ a b c, f a b c = g a b c) :
    ∀ (l1 : List α) (l2 : List β) (l3 : List γ),
      List.zipWith3 f l1 l2 l3 = List.zipWith3 g l1 l2 l3 := by
  intro l1
  induction l1 with
  | nil => intro l2 l3; cases l2 <;> cases l3 <;> simp [List.zipWith3]
  | cons x xs ih =>
    intro l2 l3
    cases l2 with
    | nil => simp [List.zipWith3]
    | cons y ys =>
      cases l3 with
      | nil => simp [List.zipWith3]
      | cons z zs => simp only [List.zipWith3, h, ih]

/-- Every list returned through `toQuery` is a sub-collection of the
pre-pagination filtered list (pagination only slices it). -/
theorem get_uids_to_query_subset (axons : List AxonInfo) (bl : List String)
    (mt tg : Nat) {q : List AxonInfo}
    (h : (get_uids_to_query axons bl mt tg).1.toQuery = some q) :
    ∀ a ∈ q, a ∈ uidsToQueryAll axons bl := by
  intro a ha
  simp only [get_uids_to_query] at h
  split_ifs at h with h1 h2 h3 h4
  · simp only [QueryResult.toQuery, Option.some.injEq] at h
    subst h
    exact absurd ha (List.not_mem_nil a)
  · simp [QueryResult.toQuery] at h
  · simp only [QueryResult.toQuery, Option.some.injEq] at h
    subst h
    exact List.drop_subset _ _ (List.take_subset _ _ ha)
  · simp only [QueryResult.toQuery, Option.some.injEq] at h
    subst h
    exact List.drop_subset _ _ (List.take_subset _ _ ha)
  · simp only [QueryResult.toQuery, Option.some.injEq] at h
    subst h
    exact ha

/-- Claim C1: every axon in the `uids_to_query` component of any
non-raising `get_uids_to_query` result satisfies the keep predicate —
nonnegative stake, IP different from `"0.0.0.0"`, and hotkey not in the
blacklist (hotkeys being the duplicate-free identities of the metagraph);
moreover the double-negated mask `torch.logical_not(~blacklisted | ~valid |
~stake)` equals the plain conjunction of the three keep conditions. -/
theorem get_uids_to_query_keep_predicate (axons : List AxonInfo)
    (bl : List String) (mt tg : Nat)
    (hnd : (axons.map AxonInfo.hotkey).Nodup) :
    (∀ q, (get_uids_to_query axons bl mt tg).1.toQuery = some q →
      ∀ a ∈ q, 0 ≤ a.stake ∧ a.ip ≠ "0.0.0.0" ∧ a.hotkey ∉ bl) ∧
    uidsToFilterMask axons bl = keepMaskSpec axons bl := by
  constructor
  · intro q hq a ha
    exact uidsToQueryAll_valid axons bl hnd
      (get_uids_to_query_subset axons bl mt tg hq a ha)
  · unfold uidsToFilterMask keepMaskSpec
    exact zipWith3_congr (by decide) _ _ _

/-- Witness for `get_uids_to_query_keep_predicate`: a one-axon metagraph
with valid IP and positive stake, not blacklisted, is returned and
satisfies the keep predicate. -/
theorem get_uids_to_query_keep_predicate_witness :
    0 ≤ (AxonInfo.mk "h1" "1.2.3.4" 1).stake ∧
      (AxonInfo.mk "h1" "1.2.3.4" 1).ip ≠ "0.0.0.0" ∧
      (AxonInfo.mk "h1" "1.2.3.4" 1).hotkey ∉ ["h2"] :=
  (get_uids_to_query_keep_predicate [AxonInfo.mk "h1" "1.2.3.4" 1] ["h2"] 300 0
      (by decide)).1
    [AxonInfo.mk "h1" "1.2.3.4" 1] (by decide) (AxonInfo.mk "h1" "1.2.3.4" 1)
    (by decide)

/-- Claim C3 (amended): when the cursor (`target_group`) is `0` and
`max_targets` is at least the filtered population size, `get_uids_to_query`
returns the full filtered list and the cursor stays `0` (with a positive
cursor the same page size instead yields an empty page or an `IndexError` —
see the counterexample to the unamended claim). -/
theorem get_uids_to_query_single_page (axons : List AxonInfo)
    (bl : List String) (mt : Nat)
    (h : (uidsToQueryAll axons bl).length ≤ mt) :
    (get_uids_to_query axons bl mt 0).1.toQuery =
        some (uidsToQueryAll axons bl) ∧
      (get_uids_to_query axons bl mt 0).2 = 0 := by
  simp only [get_uids_to_query]
  split_ifs with h1 h2 h3 h4
  · have hle : (uidsToQueryAll axons bl).length ≤ mt * (0 + 1) := by
      simpa using h
    have hlen : (uidsToQueryAll axons bl).length = 0 := by omega
    rw [List.length_eq_zero.mp hlen]
    exact ⟨rfl, rfl⟩
  · exfalso
    omega
  · constructor
    · have hmin : min (uidsToQueryAll axons bl).length (mt * (0 + 1)) =
          (uidsToQueryAll axons bl).length := by
        simp only [Nat.zero_add, Nat.mul_one]
        exact min_eq_left h
      simp only [QueryResult.toQuery, Option.some.injEq]
      rw [Nat.mul_zero, List.drop_zero, hmin, Nat.sub_zero, List.take_length]
    · rfl
  · exfalso
    omega
  · exact ⟨rfl, rfl⟩

/-- Witness for `get_uids_to_query_single_page`: two valid axons, page size
`5`, cursor `0`. -/
theorem get_uids_to_query_single_page_witness :
    (get_uids_to_query [AxonInfo.mk "h1" "1.2.3.4" 1, AxonInfo.mk "h2" "1.2.3.5" 1]
        [] 5 0).1.toQuery =
      some (uidsToQueryAll
        [AxonInfo.mk "h1" "1.2.3.4" 1, AxonInfo.mk "h2" "1.2.3.5" 1] []) :=
  (get_uids_to_query_single_page
    [AxonInfo.mk "h1" "1.2.3.4" 1, AxonInfo.mk "h2" "1.2.3.5" 1] [] 5
    (by decide)).1

/-- Counterexample to claim C3 as stated: with two filtered candidates and
`max_targets = 2 ≥ 2` but cursor `1`, `get_uids_to_query` returns an empty
page, not the full filtered list — the claim holds only for cursor `0`. -/
theorem get_uids_to_query_page_size_cex :
    (uidsToQueryAll [AxonInfo.mk "h1" "1.2.3.4" 1, AxonInfo.mk "h2" "1.2.3.5" 1]
        []).length ≤ 2 ∧
      (get_uids_to_query [AxonInfo.mk "h1" "1.2.3.4" 1, AxonInfo.mk "h2" "1.2.3.5" 1]
          [] 2 1).1.toQuery = some [] ∧
      some ([] : List AxonInfo) ≠
        some (uidsToQueryAll
          [AxonInfo.mk "h1" "1.2.3.4" 1, AxonInfo.mk "h2" "1.2.3.5" 1] []) := by
  refine ⟨by decide, by decide, by decide⟩

/-- Claim C4 (amended): in the paginating branch (`max_targets < 256`), a
slice start equal to the slice end returns the empty query set without
raising, and a slice start strictly beyond the filtered list length raises
`IndexError`; the "at the length" case is subsumed by the start-equals-end
case and returns empty rather than raising (see the counterexample to the
unamended claim). -/
theorem get_uids_to_query_page_edges (axons : List AxonInfo)
    (bl : List String) (mt tg : Nat) (hmt : mt < 256) :
    (mt * tg = min (uidsToQueryAll axons bl).length (mt * (tg + 1)) →
      (get_uids_to_query axons bl mt tg).1 = QueryResult.pair [] []) ∧
    ((uidsToQueryAll axons bl).length < mt * tg →
      (get_uids_to_query axons bl mt tg).1 =
        QueryResult.err "Starting index for querying the miners is out-of-bounds") := by
  simp only [get_uids_to_query]
  constructor
  · intro h
    rw [if_pos hmt, if_pos h]
  · intro h
    have hne : mt * tg ≠ min (uidsToQueryAll axons bl).length (mt * (tg + 1)) := by
      intro hc
      have hle : min (uidsToQueryAll axons bl).length (mt * (tg + 1)) ≤
          (uidsToQueryAll axons bl).length := min_le_left _ _
      rw [← hc] at hle
      exact absurd (lt_of_le_of_lt hle h) (lt_irrefl _)
    rw [if_pos hmt, if_neg hne, if_pos (le_of_lt h)]

/-- Witness for `get_uids_to_query_page_edges`: one filtered candidate,
page size `1` — cursor `1` gives the empty page, cursor `2` raises. -/
theorem get_uids_to_query_page_edges_witness :
    (get_uids_to_query [AxonInfo.mk "h1" "1.2.3.4" 1] [] 1 1).1 =
        QueryResult.pair [] [] ∧
      (get_uids_to_query [AxonInfo.mk "h1" "1.2.3.4" 1] [] 1 2).1 =
        QueryResult.err "Starting index for querying the miners is out-of-bounds" :=
  ⟨(get_uids_to_query_page_edges [AxonInfo.mk "h1" "1.2.3.4" 1] [] 1 1
      (by norm_num)).1 (by decide),
    (get_uids_to_query_page_edges [AxonInfo.mk "h1" "1.2.3.4" 1] [] 1 2
      (by norm_num)).2 (by decide)⟩

/-- Counterexample to claim C4 as stated: with one filtered candidate, page
size `1` and cursor `1`, the slice start index (`1`) is at the length of the
filtered list, yet the call returns the empty pair instead of raising
(start equals end takes precedence). -/
theorem get_uids_to_query_start_at_length_cex :
    (uidsToQueryAll [AxonInfo.mk "h1" "1.2.3.4" 1] []).length ≤ 1 * 1 ∧
      (get_uids_to_query [AxonInfo.mk "h1" "1.2.3.4" 1] [] 1 1).1 =
        QueryResult.pair [] [] := by
  refine ⟨by decide, by decide⟩

/-- Claim C10: the empty-page branch is the only way `get_uids_to_query`
returns the two-element tuple, and that tuple is exactly `([], [])`; it
occurs precisely when `max_targets < 256` and the slice start equals the
slice end, so callers unpacking four values receive a differently-shaped
result on an empty page. -/
theorem get_uids_to_query_pair_shape (axons : List AxonInfo)
    (bl : List String) (mt tg : Nat) :
    (∀ q u, (get_uids_to_query axons bl mt tg).1 = QueryResult.pair q u →
      q = [] ∧ u = [] ∧ mt < 256 ∧
        mt * tg = min (uidsToQueryAll axons bl).length (mt * (tg + 1))) ∧
    (mt < 256 → mt * tg = min (uidsToQueryAll axons bl).length (mt * (tg + 1)) →
      (get_uids_to_query axons bl mt tg).1 = QueryResult.pair [] []) := by
  simp only [get_uids_to_query]
  constructor
  · intro q u hqu
    split_ifs at hqu with h1 h2
    dsimp only at hqu
    injection hqu with hq hu
    exact ⟨hq.symm, hu.symm, h1, h2⟩
  · intro h1 h2
    rw [if_pos h1, if_pos h2]

/-- Witness for `get_uids_to_query_pair_shape`: the empty metagraph with
page size `1` and cursor `0` returns the two-element empty tuple. -/
theorem get_uids_to_query_pair_shape_witness :
    (get_uids_to_query [] [] 1 0).1 = QueryResult.pair [] [] :=
  (get_uids_to_query_pair_shape [] [] 1 0).2 (by norm_num) (by decide)
